import Mathlib

/-!
# Verification of `lib/src/main/jni/interruption.c`

A shallow embedding of the native half of the interruption library: the
signal-slot negotiation (`i10nInit`), the signal handler, the targeted
delivery (`interrupt`) and the token lifecycle (`newInstance`, `destroy`).

Conventions of the embedding

* C globals and the part of the process state the code touches are the
  fields of `State`; every JNI entry point is a function from `State` to a
  result record carrying the new `State`, the exception it raised (if any)
  and its return value.
* The outcome of every call into the kernel, libc or the JVM that the code
  cannot control (a syscall failing with some `errno`, the address `malloc`
  hands out, a JNI constructor returning `NULL`) is an explicit argument of
  the embedded function, so theorems quantify over all outcomes.
* Memory is a flat byte-addressed map `Nat → Nat` shared by the flags of the
  tokens and by the buffer `throwException` builds its message in. `malloc`
  leaves the bytes of the block it hands out as they are; `free` leaves in the
  block whatever the allocator writes there.
* `live` records the blocks handed out and not yet taken back; the message
  buffer is handed out and taken back within one call of `throwException`.
* A `jlong` handle is the token address (`(jlong) (intptr_t) flag`), so the
  pointer casts are the identity.
-/

namespace I10n

/-! ## Constants of the Linux ABI (generic numbering, as on ARM and x86) -/

def SIGTTIN : Int := 21
def SIGTTOU : Int := 22
def SIGWINCH : Int := 28

/-- Value of `si_code` for signals sent by `sigqueue`-style calls. -/
def SI_QUEUE : Int := -1

def SA_SIGINFO : Nat := 4

def ESRCH : Nat := 3
def EINVAL : Nat := 22

/-- Number of signals a `kernel_sigset_t` has room for. -/
def KERNEL_NSIG : Int := 64

def JNI_VERSION_1_6 : Int := 0x00010006

/-- Source: `const static int candidate_signals[] = { SIGWINCH, SIGTTIN, SIGTTOU };` -/
def candidate_signals : List Int := [SIGWINCH, SIGTTIN, SIGTTOU]

/-! ## Data model -/

/-- What the `sa_handler_` / `sa_sigaction_` slot of a `kernel_sigaction` can
hold: the two distinguished values, the handler of this library, or the
address of somebody else's function. -/
inductive sighandler where
  | SIG_DFL
  | SIG_IGN
  | interruption_handler
  | foreign (addr : Nat)
  deriving DecidableEq, Repr

/-- The fields of `struct kernel_sigaction`; `sa_mask` is kept as a bit mask. -/
structure kernel_sigaction where
  sa_handler_ : sighandler
  sa_flags : Nat
  sa_restorer : Nat
  sa_mask : Nat
  deriving DecidableEq, Repr

/-- The fields of `siginfo_t` the code sets or reads. -/
structure siginfo_t where
  si_signo : Int
  si_errno : Int
  si_code : Int
  si_pid : Int
  si_uid : Int
  sival_ptr : Nat
  deriving DecidableEq, Repr

/-- A set of signal numbers (`struct kernel_sigset_t`). -/
abbrev kernel_sigset_t := Int → Bool

/-- Pointwise update of a total map. -/
def upd {α β : Type} [DecidableEq α] (f : α → β) (a : α) (b : β) : α → β :=
  fun x => if x = a then b else f x

/-- Globals of `interruption.c` together with the process state they act on. -/
structure State where
  /-- Global `static pid_t my_pid`. -/
  my_pid : Int
  /-- Global `static uid_t my_uid`. -/
  my_uid : Int
  /-- Global `static int chosen_signal`. -/
  chosen_signal : Int
  /-- Global `static jclass isException` (0 is `NULL`). -/
  isException : Nat
  /-- Global `static jmethodID constructor` (0 is `NULL`). -/
  constructor : Nat
  /-- Value `getpid()` returns. -/
  pid : Int
  /-- Value `getuid()` returns. -/
  uid : Int
  /-- The calling thread's `errno`. -/
  errno : Nat
  /-- The process-wide table of signal dispositions. -/
  sigactions : Int → kernel_sigaction
  /-- The calling thread's set of blocked signals. -/
  blocked : kernel_sigset_t
  /-- Byte-addressed memory. -/
  mem : Nat → Nat
  /-- Addresses currently handed out by `malloc`. -/
  live : Nat → Bool

/-- A request handed to `rt_tgsigqueueinfo`. -/
structure SignalRequest where
  tgid : Int
  tid : Int
  sig : Int
  info : siginfo_t
  deriving DecidableEq, Repr

/-- The Java object `newInstance` builds: `Interruption(long, ByteBuffer)`.
The direct byte buffer is identified by the address and capacity it wraps. -/
structure Wrapper where
  nativePtr : Nat
  bufferAddress : Nat
  bufferCapacity : Nat
  deriving DecidableEq, Repr

/-- What a JNI entry point leaves behind. -/
structure Outcome (ρ : Type) where
  st : State
  /-- Message of the `IllegalStateException` raised by the call, if any. -/
  thrown : Option (List Nat)
  ret : ρ

/-! ## C strings and `str_concat` -/

/-- Function `strlen`: number of bytes before the first NUL. -/
def strlen : List Nat → Nat
  | [] => 0
  | b :: rest => if b = 0 then 0 else strlen rest + 1

/-- The stores `strcpy(buf + off, src)` performs, as (index, byte) pairs in
program order: the bytes of `src` up to its NUL, then the NUL itself. -/
def strcpy : Nat → List Nat → List (Nat × Nat)
  | off, [] => [(off, 0)]
  | off, b :: rest => if b = 0 then [(off, 0)] else (off, b) :: strcpy (off + 1) rest

/-- A buffer obtained from `malloc(totalLen)` together with the stores made
through it, in program order. Indices at or above `totalLen` are outside the
allocation. -/
structure StrBuf where
  totalLen : Nat
  stores : List (Nat × Nat)
  deriving DecidableEq, Repr

/-- Source: `static inline char* str_concat(const char* first, char* second)`. -/
def str_concat (first second : List Nat) : StrBuf :=
  let f := strlen first
  let s := strlen second
  let totalLen := f + s + 1
  { totalLen := totalLen
    stores := strcpy 0 first ++ [(f, 32)] ++ strcpy (f + 1) second }

/-- Memory of a buffer after a run of stores; `none` marks a byte not yet
stored to. -/
def applyStores (m : Nat → Option Nat) (ws : List (Nat × Nat)) : Nat → Option Nat :=
  ws.foldl (fun m w => upd m w.1 (some w.2)) m

/-- Byte found at index `i` of the buffer after all its stores. -/
def StrBuf.byteAt (b : StrBuf) (i : Nat) : Option Nat :=
  applyStores (fun _ => none) b.stores i

/-- Read a C string starting at index `i`, scanning at most `fuel` bytes. -/
def StrBuf.readFrom (b : StrBuf) : Nat → Nat → List Nat
  | 0, _ => []
  | fuel + 1, i =>
    match b.byteAt i with
    | none => []
    | some c => if c = 0 then [] else c :: b.readFrom fuel (i + 1)

/-- The C string a buffer holds. -/
def StrBuf.contents (b : StrBuf) : List Nat := b.readFrom b.stores.length 0

/-- The characters of a C string: the bytes before the first NUL. -/
def cstr (p : List Nat) : List Nat := p.takeWhile (fun b => b ≠ 0)

/-- Bytes of a string literal. -/
def lit (s : String) : List Nat := s.toList.map Char.toNat

/-! ## System calls and library calls the code relies on

Each takes the outcome the environment decides (`fault`: `none` for success,
`some e` for failure with `errno = e`) as its first argument. -/

/-- Wrapper `sys_rt_sigaction(signum, act, oldact, sigsetsize)`: on success
reports the current disposition of `signum` and, when `act` is given, replaces
it; on failure sets `errno` and changes nothing else. Returns the C return
value, the contents of `oldact` and the new state (`oldact` is only read by
the code after a successful call). -/
def sys_rt_sigaction (fault : Option Nat) (signum : Int) (act : Option kernel_sigaction)
    (s : State) : Int × kernel_sigaction × State :=
  match fault with
  | some e => (-1, s.sigactions signum, { s with errno := e })
  | none =>
    (0, s.sigactions signum,
      match act with
      | none => s
      | some a => { s with sigactions := upd s.sigactions signum a })

/-- Wrapper `sys_rt_tgsigqueueinfo(tgid, tid, sig, info)`: the request is either
accepted by the kernel or rejected with `errno` set. -/
def sys_rt_tgsigqueueinfo (fault : Option Nat) (s : State) : Int × State :=
  match fault with
  | some e => (-1, { s with errno := e })
  | none => (0, s)

/-- Helper `sys_sigemptyset(set)`. -/
def sys_sigemptyset : kernel_sigset_t := fun _ => false

/-- Helper `sys_sigaddset(set, signum)`: adds `signum` when it is a valid signal
number, otherwise fails with `EINVAL` and leaves the set alone. -/
def sys_sigaddset (set : kernel_sigset_t) (signum : Int) (s : State) :
    Int × kernel_sigset_t × State :=
  if signum < 1 ∨ signum > KERNEL_NSIG then (-1, set, { s with errno := EINVAL })
  else (0, upd set signum true, s)

/-- Wrapper `sys_rt_sigprocmask(SIG_UNBLOCK, set, oldset, sigsetsize)`: on
success the signals of `set` leave the calling thread's blocked set. Returns
the C return value, the contents of `oldset` and the new state. -/
def sys_rt_sigprocmask_UNBLOCK (fault : Option Nat) (set : kernel_sigset_t) (s : State) :
    Int × kernel_sigset_t × State :=
  match fault with
  | some e => (-1, set, { s with errno := e })
  | none => (0, s.blocked, { s with blocked := fun x => s.blocked x && !set x })

/-- Library `malloc`: `p` is the address the allocator hands out (0 is `NULL`);
the bytes of the block are whatever memory held there. -/
def malloc (p : Nat) (s : State) : State :=
  if p = 0 then s else { s with live := upd s.live p true }

/-- Memory after the allocator took back the block of `n` bytes at `p`: inside
the block it holds what the allocator left there (`junk`), outside nothing
changed. -/
def scribble (junk : Nat → Nat) (p n : Nat) (mem : Nat → Nat) : Nat → Nat :=
  fun a => if p ≤ a ∧ a < p + n then junk a else mem a

/-- Library `free` of the block of `n` bytes at `p`; `junk` is what the
allocator leaves in the bytes of the block. -/
def free (junk : Nat → Nat) (p n : Nat) (s : State) : State :=
  if p = 0 then s
  else { s with mem := scribble junk p n s.mem, live := upd s.live p false }

/-- Memory after a run of stores made through a buffer that starts at `base`. -/
def storeAll (base : Nat) (ws : List (Nat × Nat)) (mem : Nat → Nat) : Nat → Nat :=
  ws.foldl (fun m w => upd m (base + w.1) w.2) mem

/-- What the allocator decides while an exception message is built. -/
structure Allocator where
  /-- Address of the block `malloc` hands out for the message. -/
  msg : Nat
  /-- What the allocator leaves in the bytes of a block it takes back. -/
  junk : Nat → Nat

/-! ## The code of `interruption.c` -/

/-- Source: `static void interruption_handler(int signo, siginfo_t* info, void* unused)`. -/
def interruption_handler (_signo : Int) (info : siginfo_t) (s : State) : State :=
  if info.si_code = SI_QUEUE then
    let ref := info.sival_ptr
    if ref ≠ 0 then
      { s with mem := upd s.mem ref 1 }
    else s
  else s

/-- Results of the three JNI lookups `cacheRefs` makes (0 is `NULL`). -/
structure RefsEnv where
  FindClass : Nat
  NewGlobalRef : Nat
  GetMethodID : Nat

/-- Source: `static inline bool cacheRefs(JNIEnv *env, jclass wrapper)`; returns
`true` on failure. (`FatalError` ends a real VM; the code's own `return true`
is what is followed here.) -/
def cacheRefs (env : RefsEnv) (s : State) : Bool × State :=
  let s1 := { s with isException := env.FindClass }
  if s1.isException = 0 then
    (true, s1)
  else
    let s2 := { s1 with isException := env.NewGlobalRef }
    if s2.isException = 0 then
      (true, s2)
    else
      let s3 := { s2 with constructor := env.GetMethodID }
      if s3.constructor = 0 then
        (true, s3)
      else
        (false, s3)

/-- Source: `static void throwException(JNIEnv *env, const char* message)`.
Every store `str_concat` makes goes to memory, at the block the allocator hands
out (the code does not test the result of `malloc`); the message thrown is the
string read back from the buffer; `free(msg)` then returns the `totalLen` bytes
of the block to the allocator. `ThrowNew` is taken to leave the exception
pending. Returns the new state and the message. -/
def throwException (strerror : Nat → List Nat) (alloc : Allocator) (s : State)
    (message : List Nat) : State × List Nat :=
  let msg := str_concat message (strerror s.errno)
  let buf := alloc.msg
  let s1 := { s with mem := storeAll buf msg.stores s.mem }
  let text := msg.contents
  let s2 := { s1 with mem := scribble alloc.junk buf msg.totalLen s1.mem }
  (s2, text)

/-- Source: `JNIEXPORT jint JNI_OnLoad(JavaVM* vm, void* reserved)`. -/
def JNI_OnLoad (s : State) : Outcome Int :=
  let s1 := { s with chosen_signal := 0 }
  let s2 := { s1 with my_pid := s1.pid }
  let s3 := { s2 with my_uid := s2.uid }
  { st := s3, thrown := none, ret := JNI_VERSION_1_6 }

/-- What the environment decides during one call of `i10nInit`. -/
structure InitEnv where
  refs : RefsEnv
  /-- The allocator's part in a `throwException`. -/
  alloc : Allocator
  /-- Outcome of probing the disposition of a signal. -/
  probe_fault : Int → Option Nat
  /-- Outcome of installing the handler for a signal. -/
  install_fault : Int → Option Nat

/-- How the probing loop of `i10nInit` ends. -/
inductive Probed where
  /-- A probe failed and the function returns; the state carries the `errno`. -/
  | failed (s : State)
  /-- The loop ran to its end or hit `break`; the value of `candidate_signal`. -/
  | finished (candidate_signal : Int) (s : State)

/-- The `for` loop of `i10nInit` over the candidates still to be probed. -/
def probe_loop (env : InitEnv) (s : State) : List Int → Probed
  | [] => .finished 0 s
  | c :: rest =>
    match sys_rt_sigaction (env.probe_fault c) c none s with
    | (r, prev_sigaction, s1) =>
      if r ≠ 0 then .failed s1
      else if prev_sigaction.sa_handler_ = .SIG_DFL ∨ prev_sigaction.sa_handler_ = .SIG_IGN then
        .finished c s1
      else probe_loop env s1 rest

/-- The `struct kernel_sigaction new_handler` that `i10nInit` fills in. -/
def new_handler : kernel_sigaction :=
  { sa_handler_ := .interruption_handler, sa_flags := SA_SIGINFO, sa_restorer := 0, sa_mask := 0 }

/-- Source: `Java_net_sf_xfd_Interruption_i10nInit(JNIEnv *env, jclass type)`. -/
def Java_net_sf_xfd_Interruption_i10nInit (strerror : Nat → List Nat) (env : InitEnv)
    (s : State) : Outcome Unit :=
  match cacheRefs env.refs s with
  | (true, s0) => { st := s0, thrown := none, ret := () }
  | (false, s0) =>
    match probe_loop env s0 candidate_signals with
    | .failed s1 =>
      match throwException strerror env.alloc s1 (lit "Failed to probe for signal handlers") with
      | (s2, text) => { st := s2, thrown := some text, ret := () }
    | .finished candidate_signal s1 =>
      if candidate_signal = 0 then
        match throwException strerror env.alloc s1
            (lit "Failed to install signal handler, all busy") with
        | (s2, text) => { st := s2, thrown := some text, ret := () }
      else
        match sys_rt_sigaction (env.install_fault candidate_signal) candidate_signal
            (some new_handler) s1 with
        | (r, _, s2) =>
          if r ≠ 0 then
            match throwException strerror env.alloc s2 (lit "Failed to install signal handler") with
            | (s3, text) => { st := s3, thrown := some text, ret := () }
          else
            { st := { s2 with chosen_signal := candidate_signal }, thrown := none, ret := () }

/-- Source: `Java_net_sf_xfd_Interruption_interrupt(env, type, curlPtr, tid)`.
The return value is the request passed to `rt_tgsigqueueinfo`, if the call got
that far; `fault` is what the kernel answers, `alloc` the allocator's part in a
`throwException`. -/
def Java_net_sf_xfd_Interruption_interrupt (strerror : Nat → List Nat) (fault : Option Nat)
    (alloc : Allocator) (s : State) (curlPtr : Nat) (tid : Int) :
    Outcome (Option SignalRequest) :=
  if s.chosen_signal = 0 then { st := s, thrown := none, ret := none }
  else
    let ctrl := curlPtr
    let val := ctrl
    let info : siginfo_t :=
      { si_signo := s.chosen_signal, si_errno := 0, si_code := SI_QUEUE,
        si_pid := s.my_pid, si_uid := s.my_uid, sival_ptr := val }
    let request : SignalRequest :=
      { tgid := s.my_pid, tid := tid, sig := s.chosen_signal, info := info }
    match sys_rt_tgsigqueueinfo fault s with
    | (r, s1) =>
      if r ≠ 0 then
        if s1.errno = ESRCH then
          { st := s1, thrown := none, ret := some request }
        else
          match throwException strerror alloc s1
              (lit "Failed to dispatch interruption signal") with
          | (s2, text) => { st := s2, thrown := some text, ret := some request }
      else { st := s1, thrown := none, ret := some request }

/-- What the environment decides during one call of `newInstance`. -/
structure NewEnv where
  /-- Outcome of `sys_rt_sigprocmask`. -/
  unblock_fault : Option Nat
  /-- Address `malloc` hands out. -/
  flag : Nat
  /-- Whether `NewDirectByteBuffer` returns a buffer. -/
  buffer_ok : Bool
  /-- Whether `NewObject` (which runs the Java constructor) returns an object. -/
  object_ok : Bool
  /-- The allocator's part in a `throwException`. -/
  alloc : Allocator

/-- The tail of `newInstance`, from `malloc` on. -/
def newInstance_allocate (env : NewEnv) (s : State) : Outcome (Option Wrapper) :=
  let flag := env.flag
  let s1 := malloc flag s
  if env.buffer_ok = false then
    { st := s1, thrown := none, ret := none }
  else
    { st := s1, thrown := none
      ret := if env.object_ok then
          some { nativePtr := flag, bufferAddress := flag, bufferCapacity := 1 }
        else none }

/-- Source: `Java_net_sf_xfd_Interruption_newInstance(JNIEnv *env, jclass type)`. -/
def Java_net_sf_xfd_Interruption_newInstance (strerror : Nat → List Nat) (env : NewEnv)
    (s : State) : Outcome (Option Wrapper) :=
  if s.chosen_signal ≠ 0 then
    match sys_sigaddset sys_sigemptyset s.chosen_signal s with
    | (_, new_set, s1) =>
      match sys_rt_sigprocmask_UNBLOCK env.unblock_fault new_set s1 with
      | (r, _, s2) =>
        if r ≠ 0 then
          match throwException strerror env.alloc s2 (lit "Failed to unblock signal") with
          | (s3, text) => { st := s3, thrown := some text, ret := none }
        else newInstance_allocate env s2
  else newInstance_allocate env s

/-- Source: `Java_net_sf_xfd_Interruption_destroy(JNIEnv *env, jclass type, jlong ptr)`.
The block released is the one byte `newInstance` asked for; `junk` is what the
allocator leaves in it. -/
def Java_net_sf_xfd_Interruption_destroy (junk : Nat → Nat) (s : State) (ptr : Nat) :
    Outcome Unit :=
  { st := free junk ptr 1 s, thrown := none, ret := () }

/-! ## Call sequences -/

/-- One event in the life of the library: a call of an exported function with
the outcomes the environment chose, or the kernel running the handler. -/
inductive Call where
  | JNI_OnLoad
  | i10nInit (env : InitEnv)
  | interrupt (fault : Option Nat) (alloc : Allocator) (curlPtr : Nat) (tid : Int)
  | newInstance (env : NewEnv)
  | destroy (junk : Nat → Nat) (ptr : Nat)
  | deliver (signo : Int) (info : siginfo_t)

/-- State after one event. -/
def step (strerror : Nat → List Nat) (s : State) : Call → State
  | .JNI_OnLoad => (JNI_OnLoad s).st
  | .i10nInit env => (Java_net_sf_xfd_Interruption_i10nInit strerror env s).st
  | .interrupt fault alloc curlPtr tid =>
    (Java_net_sf_xfd_Interruption_interrupt strerror fault alloc s curlPtr tid).st
  | .newInstance env => (Java_net_sf_xfd_Interruption_newInstance strerror env s).st
  | .destroy junk ptr => (Java_net_sf_xfd_Interruption_destroy junk s ptr).st
  | .deliver signo info => interruption_handler signo info s

/-- State after a sequence of events. -/
def run (strerror : Nat → List Nat) (s : State) (calls : List Call) : State :=
  calls.foldl (step strerror) s

/-! ## Specification-side definitions -/

/-- A disposition nobody owns: "default action" or "ignored". -/
def idle (a : kernel_sigaction) : Bool :=
  decide (a.sa_handler_ = .SIG_DFL ∨ a.sa_handler_ = .SIG_IGN)

/-- The slot the spec's `acquireSlot` selects: the first candidate, in the
given order, whose current disposition is idle. -/
def acquireSlot_spec (table : Int → kernel_sigaction) (candidates : List Int) : Option Int :=
  candidates.find? (fun c => idle (table c))

/-- A process right after the library is loaded: every signal has its default
disposition and nothing is blocked or allocated. -/
def freshProcess : State :=
  { my_pid := 0, my_uid := 0, chosen_signal := 0, isException := 0, constructor := 0
    pid := 4321, uid := 10123, errno := 0
    sigactions := fun _ => { sa_handler_ := .SIG_DFL, sa_flags := 0, sa_restorer := 0, sa_mask := 0 }
    blocked := fun _ => false
    mem := fun _ => 0
    live := fun _ => false }

/-- An allocator that keeps message buffers at 8192, away from the tokens of
the examples, and leaves the byte 108 in every block it takes back. -/
def tidy : Allocator := { msg := 8192, junk := fun _ => 108 }

/-- An environment in which every lookup and every system call succeeds. -/
def calmInit : InitEnv :=
  { refs := { FindClass := 1, NewGlobalRef := 2, GetMethodID := 3 }
    alloc := tidy
    probe_fault := fun _ => none
    install_fault := fun _ => none }

/-- The libc `strerror` is outside the repository; this stand-in is used where
a concrete one is needed. -/
def noText : Nat → List Nat := fun _ => []

/-- A process in which another component already handles SIGWINCH and
SIGTTIN is ignored. -/
def winchTaken : State :=
  { freshProcess with
    sigactions := upd (upd freshProcess.sigactions SIGWINCH
        { sa_handler_ := .foreign 4096, sa_flags := 0, sa_restorer := 0, sa_mask := 0 })
      SIGTTIN { sa_handler_ := .SIG_IGN, sa_flags := 0, sa_restorer := 0, sa_mask := 0 } }

/-- The `siginfo` of a signal queued by this process with payload 4096. -/
def queuedAt4096 : siginfo_t :=
  { si_signo := SIGWINCH, si_errno := 0, si_code := SI_QUEUE, si_pid := 4321, si_uid := 10123,
    sival_ptr := 4096 }

/-- An allocation in which `malloc` hands out address 4096 and the JVM builds
both objects. -/
def usedBlock : NewEnv :=
  { unblock_fault := none, flag := 4096, buffer_ok := true, object_ok := true, alloc := tidy }

/-- A process that has claimed SIGWINCH. -/
def claimedProcess : State :=
  { freshProcess with
    my_pid := 4321, my_uid := 10123, chosen_signal := SIGWINCH
    sigactions := upd freshProcess.sigactions SIGWINCH new_handler }

/-- A probe that `i10nInit` reaches fails: every candidate before it was probed
successfully and found busy. -/
def ProbeFails (env : InitEnv) (s : State) : Prop :=
  ∃ as c bs, candidate_signals = as ++ c :: bs ∧
    (∀ a ∈ as, env.probe_fault a = none ∧ idle (s.sigactions a) = false) ∧
    env.probe_fault c ≠ none

/-- No candidate has an idle disposition. -/
def NoneIdle (s : State) : Prop :=
  ∀ c ∈ candidate_signals, idle (s.sigactions c) = false

/-- The install that `i10nInit` reaches fails: the first idle candidate was
found by successful probes and the kernel refuses the new handler for it. -/
def InstallFails (env : InitEnv) (s : State) : Prop :=
  ∃ as c bs, candidate_signals = as ++ c :: bs ∧
    (∀ a ∈ as, env.probe_fault a = none ∧ idle (s.sigactions a) = false) ∧
    env.probe_fault c = none ∧ idle (s.sigactions c) = true ∧ env.install_fault c ≠ none

/-- An environment in which the kernel refuses to install any handler. -/
def refusingInit : InitEnv :=
  { calmInit with install_fault := fun _ => some EINVAL }

/-- A claimed process whose calling thread has SIGWINCH and SIGTTOU blocked. -/
def blockedThread : State :=
  { claimedProcess with blocked := fun x => decide (x = SIGWINCH) || decide (x = SIGTTOU) }

/-- The calling discipline of the interface: `JNI_OnLoad` and `i10nInit` are only
invoked while no slot is claimed ("a process that has already claimed a slot
must not attempt to reclaim another"); everything else is unrestricted. -/
def disciplined (strerror : Nat → List Nat) : State → List Call → Bool
  | _, [] => true
  | s, c :: rest =>
    (match c with
      | .JNI_OnLoad => decide (s.chosen_signal = 0)
      | .i10nInit _ => decide (s.chosen_signal = 0)
      | _ => true) && disciplined strerror (step strerror s c) rest

/-- No signal has `interruption_handler` installed unless it is the claimed one. -/
def HandlerOnlyOnChosen (s : State) : Prop :=
  ∀ c, (s.sigactions c).sa_handler_ = .interruption_handler →
    c = s.chosen_signal ∧ s.chosen_signal ≠ 0

/-! ## Auxiliary facts -/

theorem idle_iff (a : kernel_sigaction) :
    idle a = true ↔ (a.sa_handler_ = .SIG_DFL ∨ a.sa_handler_ = .SIG_IGN) := by
  simp [idle]

theorem idle_false_iff (a : kernel_sigaction) :
    idle a = false ↔ ¬ (a.sa_handler_ = .SIG_DFL ∨ a.sa_handler_ = .SIG_IGN) := by
  simp [idle]

theorem upd_same {α β : Type} [DecidableEq α] (f : α → β) (a : α) (b : β) :
    upd f a b a = b := by
  simp [upd]

theorem upd_other {α β : Type} [DecidableEq α] (f : α → β) (a x : α) (b : β) (h : x ≠ a) :
    upd f a b x = f x := by
  simp [upd, h]

/-- Caching the references only touches `isException` and `constructor`. -/
theorem cacheRefs_frame (env : RefsEnv) (s : State) :
    ∃ i c, (cacheRefs env s).2 = { s with isException := i, constructor := c } := by
  unfold cacheRefs
  by_cases h1 : env.FindClass = 0
  · exact ⟨env.FindClass, s.constructor, by simp [h1]⟩
  · by_cases h2 : env.NewGlobalRef = 0
    · exact ⟨env.NewGlobalRef, s.constructor, by simp [h1, h2]⟩
    · by_cases h3 : env.GetMethodID = 0
      · exact ⟨env.NewGlobalRef, env.GetMethodID, by simp [h1, h2, h3]⟩
      · exact ⟨env.NewGlobalRef, env.GetMethodID, by simp [h1, h2, h3]⟩

theorem cacheRefs_sigactions (env : RefsEnv) (s : State) :
    (cacheRefs env s).2.sigactions = s.sigactions := by
  obtain ⟨i, c, h⟩ := cacheRefs_frame env s
  rw [h]

theorem cacheRefs_chosen_signal (env : RefsEnv) (s : State) :
    (cacheRefs env s).2.chosen_signal = s.chosen_signal := by
  obtain ⟨i, c, h⟩ := cacheRefs_frame env s
  rw [h]

theorem cacheRefs_mem (env : RefsEnv) (s : State) :
    (cacheRefs env s).2.mem = s.mem := by
  obtain ⟨i, c, h⟩ := cacheRefs_frame env s
  rw [h]

/-- The probing loop stops with a failure at the first candidate whose probe
fails, provided every candidate before it was probed and found busy. -/
theorem probe_loop_failed (env : InitEnv) (s : State) (as bs : List Int) (c : Int) (e : Nat)
    (has : ∀ a ∈ as, env.probe_fault a = none ∧ idle (s.sigactions a) = false)
    (hc : env.probe_fault c = some e) :
    probe_loop env s (as ++ c :: bs) = .failed { s with errno := e } := by
  induction as with
  | nil => simp [probe_loop, sys_rt_sigaction, hc]
  | cons a as ih =>
    have ha := has a (List.mem_cons_self a as)
    have hidle := (idle_false_iff _).1 ha.2
    have hrest : ∀ x ∈ as, env.probe_fault x = none ∧ idle (s.sigactions x) = false :=
      fun x hx => has x (List.mem_cons_of_mem a hx)
    simp only [List.cons_append, probe_loop, sys_rt_sigaction, ha.1]
    simp [hidle, ih hrest]

/-- The probing loop breaks at the first idle candidate, provided every
candidate before it was probed and found busy. -/
theorem probe_loop_found (env : InitEnv) (s : State) (as bs : List Int) (c : Int)
    (has : ∀ a ∈ as, env.probe_fault a = none ∧ idle (s.sigactions a) = false)
    (hc : env.probe_fault c = none) (hidle : idle (s.sigactions c) = true) :
    probe_loop env s (as ++ c :: bs) = .finished c s := by
  induction as with
  | nil =>
    have h := (idle_iff _).1 hidle
    simp [probe_loop, sys_rt_sigaction, hc, h]
  | cons a as ih =>
    have ha := has a (List.mem_cons_self a as)
    have hbusy := (idle_false_iff _).1 ha.2
    have hrest : ∀ x ∈ as, env.probe_fault x = none ∧ idle (s.sigactions x) = false :=
      fun x hx => has x (List.mem_cons_of_mem a hx)
    simp only [List.cons_append, probe_loop, sys_rt_sigaction, ha.1]
    simp [hbusy, ih hrest]

/-- When no candidate is idle the loop either fails on a probe or runs to its
end with `candidate_signal` still 0. -/
theorem probe_loop_none_idle (env : InitEnv) (s : State) (cs : List Int)
    (h : ∀ c ∈ cs, idle (s.sigactions c) = false) :
    (∃ e, probe_loop env s cs = .failed { s with errno := e }) ∨
      probe_loop env s cs = .finished 0 s := by
  induction cs with
  | nil => right; simp [probe_loop]
  | cons c cs ih =>
    have hc := (idle_false_iff _).1 (h c (List.mem_cons_self c cs))
    have hrest : ∀ x ∈ cs, idle (s.sigactions x) = false :=
      fun x hx => h x (List.mem_cons_of_mem c hx)
    cases hp : env.probe_fault c with
    | some e => left; exact ⟨e, by simp [probe_loop, sys_rt_sigaction, hp]⟩
    | none =>
      simp only [probe_loop, sys_rt_sigaction, hp]
      simpa [hc] using ih hrest

/-- Whatever the loop does, it ends in one of three ways: a failed probe that
only set `errno`, no candidate found and the state untouched, or a candidate of
the list that is idle, with the state untouched. -/
theorem probe_loop_cases (env : InitEnv) (s : State) (cs : List Int) :
    (∃ e, probe_loop env s cs = .failed { s with errno := e }) ∨
      probe_loop env s cs = .finished 0 s ∨
      (∃ c ∈ cs, idle (s.sigactions c) = true ∧ env.probe_fault c = none ∧
        probe_loop env s cs = .finished c s) := by
  induction cs with
  | nil => right; left; simp [probe_loop]
  | cons c cs ih =>
    cases hp : env.probe_fault c with
    | some e => left; exact ⟨e, by simp [probe_loop, sys_rt_sigaction, hp]⟩
    | none =>
      by_cases hc : (s.sigactions c).sa_handler_ = .SIG_DFL ∨ (s.sigactions c).sa_handler_ = .SIG_IGN
      · right; right
        exact ⟨c, List.mem_cons_self c cs, (idle_iff _).2 hc, hp,
          by simp [probe_loop, sys_rt_sigaction, hp, hc]⟩
      · have hstep : probe_loop env s (c :: cs) = probe_loop env s cs := by
          simp only [probe_loop, sys_rt_sigaction, hp]
          simp [hc]
        rw [hstep]
        rcases ih with h | h | ⟨d, hd, h1, h2, h3⟩
        · left; exact h
        · right; left; exact h
        · right; right; exact ⟨d, List.mem_cons_of_mem c hd, h1, h2, h3⟩

theorem candidate_ne_zero (c : Int) (h : c ∈ candidate_signals) : c ≠ 0 := by
  simp [candidate_signals, SIGWINCH, SIGTTIN, SIGTTOU] at h
  omega

/-- A successful search is a split of the list at the element found. -/
theorem find_split {α : Type} (p : α → Bool) (cs : List α) (c : α) (h : cs.find? p = some c) :
    ∃ as bs, cs = as ++ c :: bs ∧ (∀ a ∈ as, p a = false) ∧ p c = true := by
  induction cs with
  | nil => simp at h
  | cons x xs ih =>
    by_cases hx : p x = true
    · simp [List.find?, hx] at h
      subst h
      exact ⟨[], xs, rfl, by simp, hx⟩
    · have hx2 : p x = false := by simpa using hx
      simp [List.find?, hx2] at h
      obtain ⟨as, bs, h1, h2, h3⟩ := ih h
      refine ⟨x :: as, bs, by simp [h1], ?_, h3⟩
      intro a ha
      rcases List.mem_cons.1 ha with rfl | ha
      · exact hx2
      · exact h2 a ha

theorem find_of_split {α : Type} (p : α → Bool) (as bs : List α) (c : α)
    (has : ∀ a ∈ as, p a = false) (hc : p c = true) :
    (as ++ c :: bs).find? p = some c := by
  induction as with
  | nil => simp [List.find?, hc]
  | cons a as ih =>
    have ha := has a (List.mem_cons_self a as)
    have hrest : ∀ x ∈ as, p x = false := fun x hx => has x (List.mem_cons_of_mem a hx)
    simp [List.find?, ha, ih hrest]

theorem find_exists {α : Type} (p : α → Bool) (cs : List α) (h : ∃ c ∈ cs, p c = true) :
    ∃ c, cs.find? p = some c := by
  induction cs with
  | nil => simp at h
  | cons x xs ih =>
    by_cases hx : p x = true
    · exact ⟨x, by simp [List.find?, hx]⟩
    · have hx2 : p x = false := by simpa using hx
      obtain ⟨c, hc, hpc⟩ := h
      rcases List.mem_cons.1 hc with rfl | hc
      · exact absurd hpc hx
      · obtain ⟨d, hd⟩ := ih ⟨c, hc, hpc⟩
        exact ⟨d, by simp [List.find?, hx2, hd]⟩

/-- Raising an exception changes memory and nothing else. -/
theorem throwException_frame (strerror : Nat → List Nat) (alloc : Allocator) (s : State)
    (message : List Nat) :
    (throwException strerror alloc s message).1 =
      { s with mem := (throwException strerror alloc s message).1.mem } := rfl

/-- Every way a call of `i10nInit` can end, with the state it leaves: reference
caching failed; a probe or the install failed or no candidate was idle, and at
most `errno` and the memory the message went through changed; or an idle
candidate got the handler and was recorded. -/
theorem i10nInit_cases (strerror : Nat → List Nat) (env : InitEnv) (s : State) :
    ((cacheRefs env.refs s).1 = true ∧
      (Java_net_sf_xfd_Interruption_i10nInit strerror env s).st = (cacheRefs env.refs s).2 ∧
      (Java_net_sf_xfd_Interruption_i10nInit strerror env s).thrown = none) ∨
    ((cacheRefs env.refs s).1 = false ∧
      (∃ e, (Java_net_sf_xfd_Interruption_i10nInit strerror env s).st =
        { (cacheRefs env.refs s).2 with
          errno := e
          mem := (Java_net_sf_xfd_Interruption_i10nInit strerror env s).st.mem }) ∧
      (Java_net_sf_xfd_Interruption_i10nInit strerror env s).thrown.isSome = true) ∨
    ((cacheRefs env.refs s).1 = false ∧
      ∃ c ∈ candidate_signals, idle (s.sigactions c) = true ∧ env.install_fault c = none ∧
        (Java_net_sf_xfd_Interruption_i10nInit strerror env s).st =
          { (cacheRefs env.refs s).2 with
            sigactions := upd (cacheRefs env.refs s).2.sigactions c new_handler
            chosen_signal := c } ∧
        (Java_net_sf_xfd_Interruption_i10nInit strerror env s).thrown = none) := by
  have hsig := cacheRefs_sigactions env.refs s
  rcases hcr : cacheRefs env.refs s with ⟨b, s0⟩
  rw [hcr] at hsig
  simp only at hsig
  cases b with
  | true =>
    left
    simp [Java_net_sf_xfd_Interruption_i10nInit, hcr]
  | false =>
    right
    rcases probe_loop_cases env s0 candidate_signals with ⟨e, h⟩ | h | ⟨c, hc, hidle, _, h⟩
    · left
      exact ⟨rfl, ⟨e, by simp [Java_net_sf_xfd_Interruption_i10nInit, hcr, h, throwException]⟩,
        by simp [Java_net_sf_xfd_Interruption_i10nInit, hcr, h]⟩
    · left
      exact ⟨rfl,
        ⟨s0.errno, by simp [Java_net_sf_xfd_Interruption_i10nInit, hcr, h, throwException]⟩,
        by simp [Java_net_sf_xfd_Interruption_i10nInit, hcr, h]⟩
    · have hc0 := candidate_ne_zero c hc
      cases hi : env.install_fault c with
      | some e =>
        left
        exact ⟨rfl,
          ⟨e, by simp [Java_net_sf_xfd_Interruption_i10nInit, hcr, h, hc0, sys_rt_sigaction, hi,
            throwException]⟩,
          by simp [Java_net_sf_xfd_Interruption_i10nInit, hcr, h, hc0, sys_rt_sigaction, hi]⟩
      | none =>
        right
        refine ⟨rfl, c, hc, by rw [← hsig]; exact hidle, hi, ?_, ?_⟩
        · simp [Java_net_sf_xfd_Interruption_i10nInit, hcr, h, hc0, sys_rt_sigaction, hi]
        · simp [Java_net_sf_xfd_Interruption_i10nInit, hcr, h, hc0, sys_rt_sigaction, hi]

/-- A call of `interrupt` that raises nothing stores nothing. -/
theorem interrupt_mem (strerror : Nat → List Nat) (fault : Option Nat) (alloc : Allocator)
    (s : State) (curlPtr : Nat) (tid : Int)
    (h : (Java_net_sf_xfd_Interruption_interrupt strerror fault alloc s curlPtr tid).thrown
      = none) :
    (Java_net_sf_xfd_Interruption_interrupt strerror fault alloc s curlPtr tid).st.mem
      = s.mem := by
  unfold Java_net_sf_xfd_Interruption_interrupt at h ⊢
  by_cases h0 : s.chosen_signal = 0
  · simp [h0]
  · cases fault with
    | none => simp [h0, sys_rt_tgsigqueueinfo]
    | some e =>
      by_cases he : e = ESRCH
      · simp [h0, sys_rt_tgsigqueueinfo, he]
      · simp [h0, sys_rt_tgsigqueueinfo, he] at h

theorem interrupt_chosen_signal (strerror : Nat → List Nat) (fault : Option Nat)
    (alloc : Allocator) (s : State) (curlPtr : Nat) (tid : Int) :
    (Java_net_sf_xfd_Interruption_interrupt strerror fault alloc s curlPtr tid).st.chosen_signal
      = s.chosen_signal ∧
    (Java_net_sf_xfd_Interruption_interrupt strerror fault alloc s curlPtr tid).st.sigactions
      = s.sigactions := by
  unfold Java_net_sf_xfd_Interruption_interrupt
  by_cases h : s.chosen_signal = 0
  · simp [h]
  · cases fault with
    | none => simp [h, sys_rt_tgsigqueueinfo]
    | some e =>
      by_cases he : e = ESRCH
      · simp [h, sys_rt_tgsigqueueinfo, he]
      · simp [h, sys_rt_tgsigqueueinfo, he, throwException]

theorem malloc_frame (p : Nat) (s : State) :
    (malloc p s).mem = s.mem ∧ (malloc p s).chosen_signal = s.chosen_signal ∧
    (malloc p s).sigactions = s.sigactions ∧ (malloc p s).blocked = s.blocked := by
  unfold malloc
  by_cases h : p = 0 <;> simp [h]

theorem newInstance_allocate_frame (env : NewEnv) (s : State) :
    (newInstance_allocate env s).st = malloc env.flag s ∧
    (newInstance_allocate env s).thrown = none := by
  unfold newInstance_allocate
  by_cases h : env.buffer_ok = false <;> simp [h]

/-- The token code never touches the slot or the dispositions. -/
theorem newInstance_frame (strerror : Nat → List Nat) (env : NewEnv) (s : State) :
    (Java_net_sf_xfd_Interruption_newInstance strerror env s).st.chosen_signal = s.chosen_signal ∧
    (Java_net_sf_xfd_Interruption_newInstance strerror env s).st.sigactions = s.sigactions := by
  unfold Java_net_sf_xfd_Interruption_newInstance
  by_cases h : s.chosen_signal = 0
  · simp only [h, ne_eq, not_true_eq_false, if_false]
    rw [(newInstance_allocate_frame env s).1]
    have := malloc_frame env.flag s
    simp [this, h]
  · simp only [ne_eq, h, not_false_eq_true, if_true]
    by_cases hv : s.chosen_signal < 1 ∨ s.chosen_signal > KERNEL_NSIG
    · cases hf : env.unblock_fault with
      | some e => simp [sys_sigaddset, hv, sys_rt_sigprocmask_UNBLOCK, hf, throwException]
      | none =>
        simp only [sys_sigaddset, hv, if_true, sys_rt_sigprocmask_UNBLOCK, hf]
        simp only [ne_eq, not_true_eq_false, if_false]
        rw [(newInstance_allocate_frame env _).1]
        have := malloc_frame env.flag
          { s with errno := EINVAL, blocked := fun x => s.blocked x && !sys_sigemptyset x }
        simp [this]
    · cases hf : env.unblock_fault with
      | some e => simp [sys_sigaddset, hv, sys_rt_sigprocmask_UNBLOCK, hf, throwException]
      | none =>
        simp only [sys_sigaddset, hv, if_false, sys_rt_sigprocmask_UNBLOCK, hf]
        simp only [ne_eq, not_true_eq_false, if_false]
        rw [(newInstance_allocate_frame env _).1]
        have := malloc_frame env.flag
          { s with blocked := fun x => s.blocked x && !upd sys_sigemptyset s.chosen_signal true x }
        simp [this]

theorem destroy_frame (junk : Nat → Nat) (s : State) (ptr : Nat) :
    (Java_net_sf_xfd_Interruption_destroy junk s ptr).st.chosen_signal = s.chosen_signal ∧
    (Java_net_sf_xfd_Interruption_destroy junk s ptr).st.sigactions = s.sigactions := by
  unfold Java_net_sf_xfd_Interruption_destroy free
  by_cases h : ptr = 0 <;> simp [h]

theorem interruption_handler_frame (signo : Int) (info : siginfo_t) (s : State) :
    (interruption_handler signo info s).chosen_signal = s.chosen_signal ∧
    (interruption_handler signo info s).sigactions = s.sigactions := by
  unfold interruption_handler
  by_cases h1 : info.si_code = SI_QUEUE <;> by_cases h2 : info.sival_ptr = 0 <;> simp [h1, h2]

/-! ## Facts about `str_concat` -/

theorem strlen_eq (p : List Nat) : strlen p = (cstr p).length := by
  induction p with
  | nil => rfl
  | cons b rest ih =>
    by_cases hb : b = 0
    · simp [strlen, cstr, hb]
    · simp [strlen, cstr, hb, List.takeWhile_cons] at ih ⊢
      exact ih

theorem cstr_ne_zero (p : List Nat) : ∀ x ∈ cstr p, x ≠ 0 := by
  intro x hx
  have := List.mem_takeWhile_imp hx
  simpa using this

theorem applyStores_append (m : Nat → Option Nat) (xs ys : List (Nat × Nat)) :
    applyStores m (xs ++ ys) = applyStores (applyStores m xs) ys := by
  simp [applyStores, List.foldl_append]

theorem strcpy_length (src : List Nat) (off : Nat) :
    (strcpy off src).length = strlen src + 1 := by
  induction src generalizing off with
  | nil => rfl
  | cons b rest ih =>
    by_cases hb : b = 0
    · simp [strcpy, strlen, hb]
    · simp [strcpy, strlen, hb, ih]

/-- The last store of `strcpy` is the NUL, at offset `strlen src`. -/
theorem strcpy_terminator (src : List Nat) (off : Nat) :
    (off + strlen src, 0) ∈ strcpy off src := by
  induction src generalizing off with
  | nil => simp [strcpy, strlen]
  | cons b rest ih =>
    by_cases hb : b = 0
    · simp [strcpy, strlen, hb]
    · simp only [strcpy, strlen, hb, if_false, List.mem_cons]
      right
      have := ih (off + 1)
      rwa [show off + 1 + strlen rest = off + (strlen rest + 1) by omega] at this

/-- Every store of `strcpy` goes to an index from `off` to `off + strlen src`. -/
theorem strcpy_range (src : List Nat) (off : Nat) :
    ∀ w ∈ strcpy off src, off ≤ w.1 ∧ w.1 ≤ off + strlen src := by
  induction src generalizing off with
  | nil => simp [strcpy, strlen]
  | cons b rest ih =>
    by_cases hb : b = 0
    · simp [strcpy, strlen, hb]
    · intro w hw
      simp only [strcpy, hb, if_false, List.mem_cons] at hw
      rcases hw with rfl | hw
      · simp [strlen, hb]
      · have := ih (off + 1) w hw
        simp only [strlen, hb, if_false]
        omega

/-- Memory after `strcpy(buf + off, src)`: the characters of `src` followed by
a NUL from `off` on, everything else as before. -/
theorem strcpy_apply (src : List Nat) (off : Nat) (m : Nat → Option Nat) :
    (∀ j, j < (cstr src).length + 1 →
      applyStores m (strcpy off src) (off + j) = (cstr src ++ [0])[j]?) ∧
    (∀ k, k < off ∨ off + (cstr src).length < k → applyStores m (strcpy off src) k = m k) := by
  induction src generalizing off m with
  | nil =>
    refine ⟨?_, ?_⟩
    · intro j hj
      have : j = 0 := by simp [cstr] at hj; omega
      subst this
      simp [strcpy, applyStores, upd, cstr]
    · intro k hk
      have : k ≠ off := by simp [cstr] at hk; omega
      simp [strcpy, applyStores, upd, this]
  | cons b rest ih =>
    by_cases hb : b = 0
    · refine ⟨?_, ?_⟩
      · intro j hj
        have : j = 0 := by simp [cstr, hb] at hj; omega
        subst this
        simp [strcpy, applyStores, upd, cstr, hb]
      · intro k hk
        have : k ≠ off := by simp [cstr, hb] at hk; omega
        simp [strcpy, applyStores, upd, this, hb]
    · have hc : cstr (b :: rest) = b :: cstr rest := by simp [cstr, hb, List.takeWhile_cons]
      have hs : applyStores m (strcpy off (b :: rest))
          = applyStores (upd m off (some b)) (strcpy (off + 1) rest) := by
        simp [strcpy, hb, applyStores]
      obtain ⟨ih1, ih2⟩ := ih (off + 1) (upd m off (some b))
      rw [hs, hc]
      refine ⟨?_, ?_⟩
      · intro j hj
        cases j with
        | zero =>
          rw [ih2 (off + 0) (Or.inl (by omega))]
          simp [upd]
        | succ j =>
          have := ih1 j (by simp at hj; omega)
          rw [show off + (j + 1) = off + 1 + j by omega, this]
          simp
      · intro k hk
        rw [ih2 k (by simp at hk; omega)]
        have : k ≠ off := by simp at hk; omega
        simp [upd, this]

/-- Reading a buffer that holds the nonzero bytes `X` followed by a NUL gives
`X`, given enough fuel. -/
theorem readFrom_spec (b : StrBuf) (X : List Nat) (hX : ∀ x ∈ X, x ≠ 0)
    (hb : ∀ j, j < X.length + 1 → b.byteAt j = (X ++ [0])[j]?) :
    ∀ fuel i, i ≤ X.length → X.length + 1 ≤ fuel + i → b.readFrom fuel i = X.drop i := by
  intro fuel
  induction fuel with
  | zero => intro i h1 h2; omega
  | succ fuel ih =>
    intro i h1 h2
    simp only [StrBuf.readFrom]
    rw [hb i (by omega)]
    by_cases hi : i = X.length
    · subst hi
      simp
    · have hlt : i < X.length := by omega
      have hget : (X ++ [0])[i]? = some X[i] := by
        rw [List.getElem?_append_left hlt, List.getElem?_eq_getElem hlt]
      rw [hget]
      have hne : X[i] ≠ 0 := hX _ (List.getElem_mem hlt)
      simp only [hne, if_false]
      rw [ih (i + 1) (by omega) (by omega)]
      exact (List.drop_eq_getElem_cons hlt).symm

/-- What `str_concat` returns reads back as `first`, a space, `second`. -/
theorem str_concat_contents (first second : List Nat) :
    (str_concat first second).contents = cstr first ++ [32] ++ cstr second := by
  have hX : ∀ x ∈ cstr first ++ [32] ++ cstr second, x ≠ 0 := by
    intro x hx
    simp only [List.mem_append, List.mem_singleton] at hx
    rcases hx with (hx | hx) | hx
    · exact cstr_ne_zero first x hx
    · omega
    · exact cstr_ne_zero second x hx
  have hf := strlen_eq first
  have hs := strlen_eq second
  have hbytes : ∀ j, j < (cstr first ++ [32] ++ cstr second).length + 1 →
      (str_concat first second).byteAt j = (cstr first ++ [32] ++ cstr second ++ [0])[j]? := by
    intro j hj
    simp only [List.length_append, List.length_singleton] at hj
    simp only [StrBuf.byteAt, str_concat, applyStores_append]
    obtain ⟨a1, a2⟩ := strcpy_apply first 0 (fun _ => none)
    obtain ⟨b1, b2⟩ := strcpy_apply second (strlen first + 1)
      (applyStores (applyStores (fun _ => none) (strcpy 0 first)) [(strlen first, 32)])
    rw [hf] at b1 b2
    simp only [hf]
    by_cases h1 : j < (cstr first).length
    · rw [b2 j (Or.inl (by omega))]
      have hne : j ≠ (cstr first).length := by omega
      simp only [applyStores, List.foldl_cons, List.foldl_nil, upd, hne, if_false]
      have := a1 j (by omega)
      simp only [Nat.zero_add] at this
      simp only [applyStores] at this
      rw [this]
      simp [List.getElem?_append_left, h1]
    · by_cases h2 : j = (cstr first).length
      · rw [b2 j (Or.inl (by omega))]
        simp only [applyStores, List.foldl_cons, List.foldl_nil, upd, h2, if_true]
        rw [show cstr first ++ [32] ++ cstr second ++ [0]
            = cstr first ++ (32 :: (cstr second ++ [0])) by simp]
        rw [List.getElem?_append_right (le_refl _)]
        simp
      · obtain ⟨k, hk⟩ : ∃ k, j = (cstr first).length + 1 + k :=
          ⟨j - ((cstr first).length + 1), by omega⟩
        subst hk
        have e : (cstr first ++ [32] ++ cstr second ++ [0])[(cstr first).length + 1 + k]?
            = (cstr second ++ [0])[k]? := by
          have h : ((cstr first ++ [32]) ++ (cstr second ++ [0]))[(cstr first).length + 1 + k]?
              = (cstr second ++ [0])[(cstr first).length + 1 + k - (cstr first ++ [32]).length]? :=
            List.getElem?_append_right (by simp)
          simp only [List.length_append, List.length_singleton, Nat.add_sub_cancel_left] at h
          simpa using h
        rw [b1 k (by omega), e]
  have hlen : (str_concat first second).stores.length
      = (cstr first ++ [32] ++ cstr second).length + 2 := by
    simp [str_concat, strcpy_length, hf, hs]
    omega
  have := readFrom_spec (str_concat first second) _ hX hbytes
    (str_concat first second).stores.length 0 (by omega) (by omega)
  simpa [StrBuf.contents] using this

/-! ## The claims -/

/-- C1: when reference caching, every probe and the install succeed and some
candidate is idle, `i10nInit` raises nothing and sets `chosen_signal` to the
first entry of the candidate order (SIGWINCH, SIGTTIN, SIGTTOU) whose probed
disposition is `SIG_DFL` or `SIG_IGN`: it is the slot `acquireSlot_spec`
selects, it is a member of the candidate list, and every candidate standing
before it has a disposition that is neither default nor ignored. -/
theorem i10nInit_claims_first_idle (strerror : Nat → List Nat) (env : InitEnv) (s : State)
    (hrefs : (cacheRefs env.refs s).1 = false)
    (hprobe : ∀ c ∈ candidate_signals, env.probe_fault c = none)
    (hinstall : ∀ c ∈ candidate_signals, env.install_fault c = none)
    (hidle : ∃ c ∈ candidate_signals, idle (s.sigactions c) = true) :
    (Java_net_sf_xfd_Interruption_i10nInit strerror env s).thrown = none ∧
    acquireSlot_spec s.sigactions candidate_signals =
      some (Java_net_sf_xfd_Interruption_i10nInit strerror env s).st.chosen_signal ∧
    (Java_net_sf_xfd_Interruption_i10nInit strerror env s).st.chosen_signal ∈ candidate_signals ∧
    ∃ as bs,
      candidate_signals =
        as ++ (Java_net_sf_xfd_Interruption_i10nInit strerror env s).st.chosen_signal :: bs ∧
      (∀ a ∈ as, (s.sigactions a).sa_handler_ ≠ .SIG_DFL ∧
        (s.sigactions a).sa_handler_ ≠ .SIG_IGN) ∧
      ((s.sigactions (Java_net_sf_xfd_Interruption_i10nInit strerror env s).st.chosen_signal).sa_handler_
          = .SIG_DFL ∨
        (s.sigactions (Java_net_sf_xfd_Interruption_i10nInit strerror env s).st.chosen_signal).sa_handler_
          = .SIG_IGN) := by
  obtain ⟨c, hfind⟩ := find_exists (fun c => idle (s.sigactions c)) candidate_signals hidle
  obtain ⟨as, bs, hsplit, has, hc⟩ := find_split _ _ _ hfind
  have hmem : c ∈ candidate_signals := by rw [hsplit]; simp
  have hsub : ∀ a ∈ as, a ∈ candidate_signals := by
    intro a ha; rw [hsplit]; exact List.mem_append_left _ ha
  rcases hcr : cacheRefs env.refs s with ⟨b, s0⟩
  rw [hcr] at hrefs
  simp only at hrefs
  subst hrefs
  have hsig : s0.sigactions = s.sigactions := by
    have h := cacheRefs_sigactions env.refs s
    rw [hcr] at h
    exact h
  have hloop : probe_loop env s0 candidate_signals = .finished c s0 := by
    rw [hsplit]
    apply probe_loop_found
    · intro a ha
      exact ⟨hprobe a (hsub a ha), by rw [hsig]; exact has a ha⟩
    · exact hprobe c hmem
    · rw [hsig]; exact hc
  have hres : (Java_net_sf_xfd_Interruption_i10nInit strerror env s).st.chosen_signal = c ∧
      (Java_net_sf_xfd_Interruption_i10nInit strerror env s).thrown = none := by
    unfold Java_net_sf_xfd_Interruption_i10nInit
    simp [hcr, hloop, candidate_ne_zero c hmem, sys_rt_sigaction, hinstall c hmem]
  rw [hres.1]
  refine ⟨hres.2, hfind, hmem, as, bs, hsplit, ?_, (idle_iff _).1 hc⟩
  intro a ha
  have h := (idle_false_iff _).1 (has a ha)
  exact ⟨fun h1 => h (Or.inl h1), fun h2 => h (Or.inr h2)⟩

/-- Witness for C1: with SIGWINCH owned by somebody else and SIGTTIN ignored,
SIGTTIN is claimed. -/
theorem i10nInit_claims_first_idle_witness :
    (cacheRefs calmInit.refs winchTaken).1 = false ∧
    (∀ c ∈ candidate_signals, calmInit.probe_fault c = none) ∧
    (∀ c ∈ candidate_signals, calmInit.install_fault c = none) ∧
    (∃ c ∈ candidate_signals, idle (winchTaken.sigactions c) = true) ∧
    (Java_net_sf_xfd_Interruption_i10nInit noText calmInit winchTaken).st.chosen_signal = SIGTTIN ∧
    acquireSlot_spec winchTaken.sigactions candidate_signals =
      some (Java_net_sf_xfd_Interruption_i10nInit noText calmInit winchTaken).st.chosen_signal :=
  ⟨by decide, by decide, by decide, ⟨SIGTTIN, by decide, by decide⟩, by decide,
    (i10nInit_claims_first_idle noText calmInit winchTaken (by decide) (by decide) (by decide)
      ⟨SIGTTIN, by decide, by decide⟩).2.1⟩

/-- C2 (the code falls short of it): `newInstance` takes the flag byte from
`malloc` and never stores to it, so a new token shows whatever the heap holds
at its address. Here a first token at 4096 is interrupted and destroyed, the
allocator leaving the byte 108 in the block it takes back; the next
`newInstance`, for which `malloc` hands out 4096 again, returns a token whose
flag reads 108, not 0, before any signal was sent for it. -/
theorem newInstance_flag_not_zeroed :
    (Java_net_sf_xfd_Interruption_newInstance noText usedBlock
        (run noText claimedProcess [.newInstance usedBlock, .deliver SIGWINCH queuedAt4096,
          .destroy tidy.junk 4096])).ret
      = some { nativePtr := 4096, bufferAddress := 4096, bufferCapacity := 1 } ∧
    (Java_net_sf_xfd_Interruption_newInstance noText usedBlock
        (run noText claimedProcess [.newInstance usedBlock, .deliver SIGWINCH queuedAt4096,
          .destroy tidy.junk 4096])).thrown = none ∧
    (Java_net_sf_xfd_Interruption_newInstance noText usedBlock
        (run noText claimedProcess [.newInstance usedBlock, .deliver SIGWINCH queuedAt4096,
          .destroy tidy.junk 4096])).st.mem 4096 = 108 ∧
    (Java_net_sf_xfd_Interruption_newInstance noText usedBlock
        (run noText claimedProcess [.newInstance usedBlock, .deliver SIGWINCH queuedAt4096,
          .destroy tidy.junk 4096])).st.mem 4096 ≠ 0 := by
  decide

/-- C4: with no slot claimed (`chosen_signal = 0`), `interrupt` does nothing for
any thread id, any token address and any answer the kernel or the allocator
might have given: no request is submitted, no exception is raised and the
process state, memory included, is returned as it was. -/
theorem interrupt_unclaimed_noop (strerror : Nat → List Nat) (fault : Option Nat)
    (alloc : Allocator) (s : State) (curlPtr : Nat) (tid : Int) (h : s.chosen_signal = 0) :
    (Java_net_sf_xfd_Interruption_interrupt strerror fault alloc s curlPtr tid).st = s ∧
    (Java_net_sf_xfd_Interruption_interrupt strerror fault alloc s curlPtr tid).thrown = none ∧
    (Java_net_sf_xfd_Interruption_interrupt strerror fault alloc s curlPtr tid).ret = none := by
  simp [Java_net_sf_xfd_Interruption_interrupt, h]

/-- Witness for C4: a null token address and a kernel that would have refused. -/
theorem interrupt_unclaimed_noop_witness :
    freshProcess.chosen_signal = 0 ∧
    (Java_net_sf_xfd_Interruption_interrupt noText (some EINVAL) tidy freshProcess 0 77).st
      = freshProcess ∧
    (Java_net_sf_xfd_Interruption_interrupt noText (some EINVAL) tidy freshProcess 0 77).thrown
      = none ∧
    (Java_net_sf_xfd_Interruption_interrupt noText (some EINVAL) tidy freshProcess 0 77).ret
      = none :=
  ⟨by decide, interrupt_unclaimed_noop noText (some EINVAL) tidy freshProcess 0 77 (by decide)⟩

/-- C5: with a slot claimed, `interrupt` raises an exception exactly when the
submission fails with an `errno` other than `ESRCH`; a successful submission
and one failing with `ESRCH` raise nothing, in the `ESRCH` case the token's
flag is left as it was, and whenever nothing is raised `interrupt` leaves all
of memory as it was. -/
theorem interrupt_throws_iff (strerror : Nat → List Nat) (fault : Option Nat)
    (alloc : Allocator) (s : State) (curlPtr : Nat) (tid : Int) (h : s.chosen_signal ≠ 0) :
    ((Java_net_sf_xfd_Interruption_interrupt strerror fault alloc s curlPtr tid).thrown.isSome
        = true
      ↔ ∃ e, fault = some e ∧ e ≠ ESRCH) ∧
    (fault = none →
      (Java_net_sf_xfd_Interruption_interrupt strerror fault alloc s curlPtr tid).thrown
        = none) ∧
    (fault = some ESRCH →
      (Java_net_sf_xfd_Interruption_interrupt strerror fault alloc s curlPtr tid).thrown
        = none ∧
      (Java_net_sf_xfd_Interruption_interrupt strerror fault alloc s curlPtr tid).st.mem curlPtr
        = s.mem curlPtr) ∧
    ((Java_net_sf_xfd_Interruption_interrupt strerror fault alloc s curlPtr tid).thrown = none →
      (Java_net_sf_xfd_Interruption_interrupt strerror fault alloc s curlPtr tid).st.mem
        = s.mem) := by
  refine ⟨?_, ?_, ?_, interrupt_mem strerror fault alloc s curlPtr tid⟩
  · cases fault with
    | none => simp [Java_net_sf_xfd_Interruption_interrupt, h, sys_rt_tgsigqueueinfo]
    | some e =>
      by_cases he : e = ESRCH
      · simp [Java_net_sf_xfd_Interruption_interrupt, h, sys_rt_tgsigqueueinfo, he]
      · simp [Java_net_sf_xfd_Interruption_interrupt, h, sys_rt_tgsigqueueinfo, he]
  · intro hf
    subst hf
    simp [Java_net_sf_xfd_Interruption_interrupt, h, sys_rt_tgsigqueueinfo]
  · intro hf
    subst hf
    have hq : (Java_net_sf_xfd_Interruption_interrupt strerror (some ESRCH) alloc s curlPtr
        tid).thrown = none := by
      simp [Java_net_sf_xfd_Interruption_interrupt, h, sys_rt_tgsigqueueinfo]
    exact ⟨hq, by rw [interrupt_mem strerror (some ESRCH) alloc s curlPtr tid hq]⟩

/-- Witness for C5: the target thread is gone (`ESRCH`), nothing is raised and
the flag at 4096 still reads 0. -/
theorem interrupt_throws_iff_witness :
    claimedProcess.chosen_signal ≠ 0 ∧
    (Java_net_sf_xfd_Interruption_interrupt noText (some ESRCH) tidy claimedProcess 4096
      77).thrown = none ∧
    (Java_net_sf_xfd_Interruption_interrupt noText (some ESRCH) tidy claimedProcess 4096
      77).st.mem 4096 = 0 :=
  ⟨by decide,
    ((interrupt_throws_iff noText (some ESRCH) tidy claimedProcess 4096 77
      (by decide)).2.2.1 rfl).1,
    ((interrupt_throws_iff noText (some ESRCH) tidy claimedProcess 4096 77
      (by decide)).2.2.1 rfl).2⟩

/-- C6: for every signal number, `siginfo` and state, `interruption_handler`
returns the state with at most the memory changed: if `si_code` is `SI_QUEUE`
and the payload pointer is not null, the byte at the payload address becomes 1
and every other byte is unchanged; otherwise memory is unchanged. The globals
(`chosen_signal`, `my_pid`, `my_uid`) are neither written nor read: the memory
the handler leaves does not depend on them. -/
theorem interruption_handler_effect (signo : Int) (info : siginfo_t) (s : State) :
    (interruption_handler signo info s =
      { s with mem := (interruption_handler signo info s).mem }) ∧
    (info.si_code = SI_QUEUE ∧ info.sival_ptr ≠ 0 →
      (interruption_handler signo info s).mem info.sival_ptr = 1 ∧
      ∀ a, a ≠ info.sival_ptr → (interruption_handler signo info s).mem a = s.mem a) ∧
    (¬ (info.si_code = SI_QUEUE ∧ info.sival_ptr ≠ 0) →
      (interruption_handler signo info s).mem = s.mem) ∧
    ((interruption_handler signo info s).chosen_signal = s.chosen_signal ∧
      (interruption_handler signo info s).my_pid = s.my_pid ∧
      (interruption_handler signo info s).my_uid = s.my_uid) ∧
    (∀ c p u, (interruption_handler signo info
        { s with chosen_signal := c, my_pid := p, my_uid := u }).mem
      = (interruption_handler signo info s).mem) := by
  unfold interruption_handler
  by_cases h1 : info.si_code = SI_QUEUE
  · by_cases h2 : info.sival_ptr = 0
    · simp [h1, h2]
    · simp only [h1, h2, ne_eq, not_false_eq_true, if_true, and_self, true_implies, not_true_eq_false,
        false_implies, true_and, and_true]
      exact ⟨⟨upd_same _ _ _, fun a ha => upd_other _ _ _ _ ha⟩, fun _ _ _ => trivial⟩
  · simp [h1]

/-- Witness for C6: a queued signal carrying the address 4096 sets that byte
and leaves the neighbouring token at 4097 alone. -/
theorem interruption_handler_effect_witness :
    (interruption_handler SIGWINCH
        { si_signo := SIGWINCH, si_errno := 0, si_code := SI_QUEUE, si_pid := 1, si_uid := 1,
          sival_ptr := 4096 } freshProcess).mem 4096 = 1 ∧
    (interruption_handler SIGWINCH
        { si_signo := SIGWINCH, si_errno := 0, si_code := SI_QUEUE, si_pid := 1, si_uid := 1,
          sival_ptr := 4096 } freshProcess).mem 4097 = freshProcess.mem 4097 :=
  ⟨((interruption_handler_effect SIGWINCH
        { si_signo := SIGWINCH, si_errno := 0, si_code := SI_QUEUE, si_pid := 1, si_uid := 1,
          sival_ptr := 4096 } freshProcess).2.1 ⟨rfl, by decide⟩).1,
    ((interruption_handler_effect SIGWINCH
        { si_signo := SIGWINCH, si_errno := 0, si_code := SI_QUEUE, si_pid := 1, si_uid := 1,
          sival_ptr := 4096 } freshProcess).2.1 ⟨rfl, by decide⟩).2 4097 (by decide)⟩

/-- C7: starting with no slot claimed and with reference caching succeeding,
a failing `i10nInit` leaves no half-claimed slot. If a probe it reaches fails,
if no candidate is idle, or if the install it attempts fails, an exception is
raised, `chosen_signal` is still 0 and the table of dispositions is unchanged;
the same holds whenever an exception is raised. Conversely, if `chosen_signal`
is nonzero afterwards, the install for that signal succeeded, nothing was
raised, and the table differs from the old one exactly at that signal, which
now has `interruption_handler` with flags `SA_SIGINFO`. -/
theorem i10nInit_failure_claims_nothing (strerror : Nat → List Nat) (env : InitEnv) (s : State)
    (h0 : s.chosen_signal = 0) (hrefs : (cacheRefs env.refs s).1 = false) :
    (ProbeFails env s ∨ NoneIdle s ∨ InstallFails env s →
      (Java_net_sf_xfd_Interruption_i10nInit strerror env s).thrown.isSome = true ∧
      (Java_net_sf_xfd_Interruption_i10nInit strerror env s).st.chosen_signal = 0 ∧
      (Java_net_sf_xfd_Interruption_i10nInit strerror env s).st.sigactions = s.sigactions) ∧
    ((Java_net_sf_xfd_Interruption_i10nInit strerror env s).thrown.isSome = true →
      (Java_net_sf_xfd_Interruption_i10nInit strerror env s).st.chosen_signal = 0 ∧
      (Java_net_sf_xfd_Interruption_i10nInit strerror env s).st.sigactions = s.sigactions) ∧
    ((Java_net_sf_xfd_Interruption_i10nInit strerror env s).st.chosen_signal ≠ 0 →
      (Java_net_sf_xfd_Interruption_i10nInit strerror env s).st.chosen_signal ∈ candidate_signals ∧
      env.install_fault (Java_net_sf_xfd_Interruption_i10nInit strerror env s).st.chosen_signal
        = none ∧
      (Java_net_sf_xfd_Interruption_i10nInit strerror env s).thrown = none ∧
      (Java_net_sf_xfd_Interruption_i10nInit strerror env s).st.sigactions =
        upd s.sigactions (Java_net_sf_xfd_Interruption_i10nInit strerror env s).st.chosen_signal
          { sa_handler_ := .interruption_handler, sa_flags := SA_SIGINFO,
            sa_restorer := 0, sa_mask := 0 }) := by
  have hsig := cacheRefs_sigactions env.refs s
  have hch := cacheRefs_chosen_signal env.refs s
  have hthrow : (Java_net_sf_xfd_Interruption_i10nInit strerror env s).thrown.isSome = true →
      (Java_net_sf_xfd_Interruption_i10nInit strerror env s).st.chosen_signal = 0 ∧
      (Java_net_sf_xfd_Interruption_i10nInit strerror env s).st.sigactions = s.sigactions := by
    intro ht
    rcases i10nInit_cases strerror env s with ⟨h, _, _⟩ | ⟨_, ⟨e, h⟩, _⟩ |
      ⟨_, c, _, _, _, _, h⟩
    · rw [hrefs] at h; exact absurd h (by decide)
    · rw [h]; exact ⟨by simp [hch, h0], by simp [hsig]⟩
    · rw [h] at ht; exact absurd ht (by decide)
  refine ⟨?_, hthrow, ?_⟩
  · intro hfail
    suffices ht : (Java_net_sf_xfd_Interruption_i10nInit strerror env s).thrown.isSome = true from
      ⟨ht, hthrow ht⟩
    rcases hcr : cacheRefs env.refs s with ⟨b, s0⟩
    rw [hcr] at hrefs hsig
    simp only at hrefs hsig
    subst hrefs
    rcases hfail with ⟨as, c, bs, hsplit, has, hc⟩ | hnone | ⟨as, c, bs, hsplit, has, hc, hidle, hi⟩
    · obtain ⟨e, he⟩ := Option.ne_none_iff_exists'.1 hc
      have hloop := probe_loop_failed env s0 as bs c e (by rw [hsig]; exact has) he
      rw [← hsplit] at hloop
      simp [Java_net_sf_xfd_Interruption_i10nInit, hcr, hloop]
    · rcases probe_loop_none_idle env s0 candidate_signals (by rw [hsig]; exact hnone) with
        ⟨e, hloop⟩ | hloop
      · simp [Java_net_sf_xfd_Interruption_i10nInit, hcr, hloop]
      · simp [Java_net_sf_xfd_Interruption_i10nInit, hcr, hloop]
    · obtain ⟨e, he⟩ := Option.ne_none_iff_exists'.1 hi
      have hloop := probe_loop_found env s0 as bs c (by rw [hsig]; exact has) hc
        (by rw [hsig]; exact hidle)
      rw [← hsplit] at hloop
      have hmem : c ∈ candidate_signals := by rw [hsplit]; simp
      simp [Java_net_sf_xfd_Interruption_i10nInit, hcr, hloop, candidate_ne_zero c hmem,
        sys_rt_sigaction, he]
  · intro hne
    rcases i10nInit_cases strerror env s with ⟨h, _, _⟩ | ⟨_, ⟨e, h⟩, _⟩ |
      ⟨_, c, hc, _, hi, h, ht⟩
    · rw [hrefs] at h; exact absurd h (by decide)
    · rw [h] at hne; exact absurd (by simp [hch, h0]) hne
    · rw [h]
      exact ⟨hc, hi, ht, by simp [hsig, new_handler]⟩

/-- Witness for C7: the kernel refuses the install in a fresh process; the call
raises, claims nothing and leaves SIGWINCH at its default disposition. -/
theorem i10nInit_failure_claims_nothing_witness :
    freshProcess.chosen_signal = 0 ∧ (cacheRefs refusingInit.refs freshProcess).1 = false ∧
    (Java_net_sf_xfd_Interruption_i10nInit noText refusingInit freshProcess).thrown.isSome = true ∧
    (Java_net_sf_xfd_Interruption_i10nInit noText refusingInit freshProcess).st.chosen_signal = 0 ∧
    (Java_net_sf_xfd_Interruption_i10nInit noText refusingInit freshProcess).st.sigactions
      = freshProcess.sigactions :=
  ⟨by decide, by decide,
    (i10nInit_failure_claims_nothing noText refusingInit freshProcess (by decide) (by decide)).1
      (Or.inr (Or.inr ⟨[], SIGWINCH, [SIGTTIN, SIGTTOU], rfl, by simp, rfl, by decide,
        by decide⟩))⟩

theorem run_append (strerror : Nat → List Nat) (s : State) (xs ys : List Call) :
    run strerror s (xs ++ ys) = run strerror (run strerror s xs) ys := by
  simp [run, List.foldl_append]

theorem disciplined_append (strerror : Nat → List Nat) (s : State) (xs ys : List Call) :
    disciplined strerror s (xs ++ ys) =
      (disciplined strerror s xs && disciplined strerror (run strerror s xs) ys) := by
  induction xs generalizing s with
  | nil => simp [disciplined, run]
  | cons x xs ih =>
    have h := ih (step strerror s x)
    simp only [run] at h
    simp only [List.cons_append, disciplined, run, List.foldl_cons, Bool.and_assoc]
    rw [show xs.append ys = xs ++ ys from rfl, h]

/-- One permitted event keeps a claimed slot and keeps the handler confined to
the claimed signal. -/
theorem step_keeps_slot (strerror : Nat → List Nat) (s : State) (c : Call)
    (hd : disciplined strerror s [c] = true) (hinv : HandlerOnlyOnChosen s) :
    (s.chosen_signal ≠ 0 → (step strerror s c).chosen_signal = s.chosen_signal) ∧
    HandlerOnlyOnChosen (step strerror s c) := by
  cases c with
  | JNI_OnLoad =>
    have h0 : s.chosen_signal = 0 := by simpa [disciplined] using hd
    refine ⟨fun h => absurd h0 h, ?_⟩
    intro x hx
    have := hinv x (by simpa [step, JNI_OnLoad] using hx)
    exact absurd h0 this.2
  | i10nInit env =>
    have h0 : s.chosen_signal = 0 := by simpa [disciplined] using hd
    refine ⟨fun h => absurd h0 h, ?_⟩
    have hsig := cacheRefs_sigactions env.refs s
    have hnone : ∀ x, (s.sigactions x).sa_handler_ ≠ .interruption_handler :=
      fun x hx => absurd h0 (hinv x hx).2
    intro x hx
    simp only [step] at hx ⊢
    rcases i10nInit_cases strerror env s with ⟨_, h, _⟩ | ⟨_, ⟨e, h⟩, _⟩ |
      ⟨_, c, hc, _, _, h, _⟩
    · rw [h, hsig] at hx; exact absurd hx (hnone x)
    · rw [h] at hx; simp only [hsig] at hx; exact absurd hx (hnone x)
    · rw [h] at hx ⊢
      simp only [hsig] at hx ⊢
      by_cases hxc : x = c
      · exact ⟨hxc, candidate_ne_zero c hc⟩
      · rw [upd_other _ _ _ _ hxc] at hx
        exact absurd hx (hnone x)
  | interrupt fault alloc curlPtr tid =>
    have h := interrupt_chosen_signal strerror fault alloc s curlPtr tid
    refine ⟨fun _ => h.1, ?_⟩
    intro x hx
    simp only [step] at hx ⊢
    rw [h.2] at hx
    rw [h.1]
    exact hinv x hx
  | newInstance env =>
    have h := newInstance_frame strerror env s
    refine ⟨fun _ => h.1, ?_⟩
    intro x hx
    simp only [step] at hx ⊢
    rw [h.2] at hx
    rw [h.1]
    exact hinv x hx
  | destroy junk ptr =>
    have h := destroy_frame junk s ptr
    refine ⟨fun _ => h.1, ?_⟩
    intro x hx
    simp only [step] at hx ⊢
    rw [h.2] at hx
    rw [h.1]
    exact hinv x hx
  | deliver signo info =>
    have h := interruption_handler_frame signo info s
    refine ⟨fun _ => h.1, ?_⟩
    intro x hx
    simp only [step] at hx ⊢
    rw [h.2] at hx
    rw [h.1]
    exact hinv x hx

theorem run_keeps_slot (strerror : Nat → List Nat) (calls : List Call) (s : State)
    (hd : disciplined strerror s calls = true) (hinv : HandlerOnlyOnChosen s) :
    (s.chosen_signal ≠ 0 → (run strerror s calls).chosen_signal = s.chosen_signal) ∧
    HandlerOnlyOnChosen (run strerror s calls) := by
  induction calls generalizing s with
  | nil => exact ⟨fun _ => rfl, hinv⟩
  | cons c rest ih =>
    have hsplit : disciplined strerror s [c] = true ∧
        disciplined strerror (step strerror s c) rest = true := by
      have := hd
      simp only [disciplined, Bool.and_eq_true] at this ⊢
      exact ⟨⟨this.1, trivial⟩, this.2⟩
    have h1 := step_keeps_slot strerror s c hsplit.1 hinv
    have h2 := ih (step strerror s c) hsplit.2 h1.2
    refine ⟨?_, ?_⟩
    · intro hne
      have hstep := h1.1 hne
      have : (run strerror (step strerror s c) rest).chosen_signal
          = (step strerror s c).chosen_signal := h2.1 (by rw [hstep]; exact hne)
      simp only [run, List.foldl_cons] at this ⊢
      rw [this, hstep]
    · simpa [run] using h2.2

/-- C3, refuted as stated: two calls of `i10nInit` in a fresh process claim
SIGWINCH and then SIGTTIN, leaving the handler installed for both, and
`JNI_OnLoad` after a claim resets `chosen_signal` to 0. -/
theorem chosen_signal_reassigned :
    (run noText freshProcess [.i10nInit calmInit]).chosen_signal = SIGWINCH ∧
    (run noText freshProcess [.i10nInit calmInit, .i10nInit calmInit]).chosen_signal = SIGTTIN ∧
    ((run noText freshProcess [.i10nInit calmInit, .i10nInit calmInit]).sigactions
      SIGWINCH).sa_handler_ = .interruption_handler ∧
    ((run noText freshProcess [.i10nInit calmInit, .i10nInit calmInit]).sigactions
      SIGTTIN).sa_handler_ = .interruption_handler ∧
    (run noText freshProcess [.i10nInit calmInit, .JNI_OnLoad]).chosen_signal = 0 := by
  decide

/-- C3, amended: for every sequence of events (calls of `JNI_OnLoad`,
`i10nInit`, `interrupt`, `newInstance`, `destroy` and handler runs, with any
outcomes) in which `JNI_OnLoad` and `i10nInit` are invoked only while no slot is
claimed, started where the handler is installed for no signal other than a
claimed one: once `chosen_signal` is nonzero at some point of the sequence it
has the same value at every later point, and at every point the handler is
installed for no signal other than the claimed one. -/
theorem claimed_slot_stable (strerror : Nat → List Nat) (s : State) (before after : List Call)
    (hd : disciplined strerror s (before ++ after) = true) (hinv : HandlerOnlyOnChosen s) :
    ((run strerror s before).chosen_signal ≠ 0 →
      (run strerror s (before ++ after)).chosen_signal = (run strerror s before).chosen_signal) ∧
    (∀ c, ((run strerror s before).sigactions c).sa_handler_ = .interruption_handler →
      c = (run strerror s before).chosen_signal) ∧
    (∀ c d, ((run strerror s (before ++ after)).sigactions c).sa_handler_ = .interruption_handler →
      ((run strerror s (before ++ after)).sigactions d).sa_handler_ = .interruption_handler →
      c = d) := by
  rw [disciplined_append, Bool.and_eq_true] at hd
  have h1 := run_keeps_slot strerror before s hd.1 hinv
  have h2 := run_keeps_slot strerror after (run strerror s before) hd.2 h1.2
  rw [run_append]
  refine ⟨h2.1, fun c hc => (h1.2 c hc).1, ?_⟩
  intro c d hc hd2
  rw [(h2.2 c hc).1, (h2.2 d hd2).1]

/-- Witness for C3 (amended): a claim followed by token traffic and a retry-free
tail keeps SIGWINCH. -/
theorem claimed_slot_stable_witness :
    HandlerOnlyOnChosen freshProcess ∧
    disciplined noText freshProcess
      ([.JNI_OnLoad, .i10nInit calmInit] ++
        [.newInstance usedBlock, .interrupt none tidy 4096 77, .destroy tidy.junk 4096]) = true ∧
    (run noText freshProcess ([.JNI_OnLoad, .i10nInit calmInit] ++
        [.newInstance usedBlock, .interrupt none tidy 4096 77, .destroy tidy.junk 4096])).chosen_signal
      = (run noText freshProcess [.JNI_OnLoad, .i10nInit calmInit]).chosen_signal ∧
    (run noText freshProcess [.JNI_OnLoad, .i10nInit calmInit]).chosen_signal = SIGWINCH :=
  ⟨fun c h => by simp [freshProcess] at h, by decide,
    (claimed_slot_stable noText freshProcess [.JNI_OnLoad, .i10nInit calmInit]
      [.newInstance usedBlock, .interrupt none tidy 4096 77, .destroy tidy.junk 4096] (by decide)
      (fun c h => by simp [freshProcess] at h)).1 (by decide),
    by decide⟩

/-- With a valid claimed signal and a successful unblock, `newInstance` is the
allocation run from the state in which the signal has already left the mask. -/
theorem newInstance_claimed (strerror : Nat → List Nat) (env : NewEnv) (s : State)
    (hc : s.chosen_signal ∈ candidate_signals) (hu : env.unblock_fault = none) :
    Java_net_sf_xfd_Interruption_newInstance strerror env s =
      newInstance_allocate env
        { s with blocked := fun x => s.blocked x && !decide (x = s.chosen_signal) } := by
  have hne := candidate_ne_zero _ hc
  have hv : ¬ (s.chosen_signal < 1 ∨ s.chosen_signal > KERNEL_NSIG) := by
    simp [candidate_signals, SIGWINCH, SIGTTIN, SIGTTOU] at hc
    simp only [KERNEL_NSIG]
    omega
  unfold Java_net_sf_xfd_Interruption_newInstance
  simp only [ne_eq, hne, not_false_eq_true, if_true, sys_sigaddset, hv, if_false,
    sys_rt_sigprocmask_UNBLOCK, hu, not_true_eq_false]
  congr 2

/-- C9: for every signal mask of the calling thread. With a slot claimed
(`chosen_signal` one of the candidates, the only values `i10nInit` stores) and
the unblock succeeding, `newInstance` is the token allocation run after
`chosen_signal` has left the blocked set: in the state it returns
`chosen_signal` is not blocked and every other signal is blocked exactly if it
was before. With a slot claimed and the unblock failing, it raises an
exception, returns null, allocates nothing and leaves the mask alone. With no
slot claimed, it leaves the mask unchanged, raises nothing, allocates the flag
and returns the token (whenever the JVM builds the buffer and the object). -/
theorem newInstance_unblocks_chosen (strerror : Nat → List Nat) (env : NewEnv) (s : State) :
    (s.chosen_signal ∈ candidate_signals → env.unblock_fault = none →
      Java_net_sf_xfd_Interruption_newInstance strerror env s =
        newInstance_allocate env
          { s with blocked := fun x => s.blocked x && !decide (x = s.chosen_signal) } ∧
      (Java_net_sf_xfd_Interruption_newInstance strerror env s).st.blocked s.chosen_signal
        = false ∧
      (∀ x, x ≠ s.chosen_signal →
        (Java_net_sf_xfd_Interruption_newInstance strerror env s).st.blocked x = s.blocked x) ∧
      (Java_net_sf_xfd_Interruption_newInstance strerror env s).st.live
        = (malloc env.flag s).live) ∧
    (s.chosen_signal ∈ candidate_signals → env.unblock_fault ≠ none →
      (Java_net_sf_xfd_Interruption_newInstance strerror env s).thrown.isSome = true ∧
      (Java_net_sf_xfd_Interruption_newInstance strerror env s).ret = none ∧
      (Java_net_sf_xfd_Interruption_newInstance strerror env s).st.live = s.live ∧
      (Java_net_sf_xfd_Interruption_newInstance strerror env s).st.blocked = s.blocked) ∧
    (s.chosen_signal = 0 →
      (Java_net_sf_xfd_Interruption_newInstance strerror env s).st.blocked = s.blocked ∧
      (Java_net_sf_xfd_Interruption_newInstance strerror env s).thrown = none ∧
      (Java_net_sf_xfd_Interruption_newInstance strerror env s).st.live
        = (malloc env.flag s).live ∧
      (env.buffer_ok = true → env.object_ok = true →
        (Java_net_sf_xfd_Interruption_newInstance strerror env s).ret
          = some { nativePtr := env.flag, bufferAddress := env.flag, bufferCapacity := 1 })) := by
  refine ⟨?_, ?_, ?_⟩
  · intro hc hu
    have h := newInstance_claimed strerror env s hc hu
    refine ⟨h, ?_, ?_, ?_⟩
    · rw [h, (newInstance_allocate_frame env _).1, (malloc_frame env.flag _).2.2.2]
      simp
    · intro x hx
      rw [h, (newInstance_allocate_frame env _).1, (malloc_frame env.flag _).2.2.2]
      simp [hx]
    · rw [h, (newInstance_allocate_frame env _).1]
      unfold malloc
      by_cases hp : env.flag = 0 <;> simp [hp]
  · intro hc hu
    have hne := candidate_ne_zero _ hc
    have hv : ¬ (s.chosen_signal < 1 ∨ s.chosen_signal > KERNEL_NSIG) := by
      simp [candidate_signals, SIGWINCH, SIGTTIN, SIGTTOU] at hc
      simp only [KERNEL_NSIG]
      omega
    obtain ⟨e, he⟩ := Option.ne_none_iff_exists'.1 hu
    unfold Java_net_sf_xfd_Interruption_newInstance
    simp [hne, sys_sigaddset, hv, sys_rt_sigprocmask_UNBLOCK, he, throwException]
  · intro h0
    unfold Java_net_sf_xfd_Interruption_newInstance
    simp only [h0, ne_eq, not_true_eq_false, if_false]
    refine ⟨?_, (newInstance_allocate_frame env s).2, ?_, ?_⟩
    · rw [(newInstance_allocate_frame env s).1, (malloc_frame env.flag s).2.2.2]
    · rw [(newInstance_allocate_frame env s).1]
    · intro hb ho
      simp [newInstance_allocate, hb, ho]

/-- Witness for C9: a thread with SIGWINCH and SIGTTOU blocked allocates a
token in a process that claimed SIGWINCH; SIGWINCH is unblocked, SIGTTOU is
still blocked. -/
theorem newInstance_unblocks_chosen_witness :
    blockedThread.chosen_signal ∈ candidate_signals ∧ usedBlock.unblock_fault = none ∧
    (Java_net_sf_xfd_Interruption_newInstance noText usedBlock blockedThread).st.blocked
      blockedThread.chosen_signal = false ∧
    (Java_net_sf_xfd_Interruption_newInstance noText usedBlock blockedThread).st.blocked SIGTTOU
      = true ∧
    blockedThread.blocked SIGWINCH = true :=
  ⟨by decide, rfl,
    ((newInstance_unblocks_chosen noText usedBlock blockedThread).1 (by decide) rfl).2.1,
    by decide, by decide⟩

/-- The request `interrupt` builds with a slot claimed, whatever the kernel and
the allocator answer: signal `chosen_signal`, `si_code = SI_QUEUE`, sender
`my_pid` / `my_uid`, the token address as payload, aimed at `(my_pid, tid)`;
the handler run on it stores 1 at a token address that is not null. -/
theorem interrupt_request_accepted (strerror : Nat → List Nat) (fault : Option Nat)
    (alloc : Allocator) (s t : State) (curlPtr : Nat) (tid : Int)
    (hc : s.chosen_signal ≠ 0) (hp : curlPtr ≠ 0) :
    (Java_net_sf_xfd_Interruption_interrupt strerror fault alloc s curlPtr tid).ret =
      some { tgid := s.my_pid, tid := tid, sig := s.chosen_signal
             info := { si_signo := s.chosen_signal, si_errno := 0, si_code := SI_QUEUE
                       si_pid := s.my_pid, si_uid := s.my_uid, sival_ptr := curlPtr } } ∧
    (interruption_handler s.chosen_signal
        { si_signo := s.chosen_signal, si_errno := 0, si_code := SI_QUEUE
          si_pid := s.my_pid, si_uid := s.my_uid, sival_ptr := curlPtr } t).mem curlPtr = 1 := by
  refine ⟨?_, by simp [interruption_handler, hp, upd]⟩
  cases fault with
  | none => simp [Java_net_sf_xfd_Interruption_interrupt, hc, sys_rt_tgsigqueueinfo]
  | some e =>
    by_cases he : e = ESRCH
    · simp [Java_net_sf_xfd_Interruption_interrupt, hc, sys_rt_tgsigqueueinfo, he]
    · simp [Java_net_sf_xfd_Interruption_interrupt, hc, sys_rt_tgsigqueueinfo, he]

/-- A handler run never changes a byte that holds 1. -/
theorem interruption_handler_keeps_flag (signo : Int) (info : siginfo_t) (s : State) (a : Nat)
    (h : s.mem a = 1) : (interruption_handler signo info s).mem a = 1 := by
  simp only [interruption_handler]
  by_cases h1 : info.si_code = SI_QUEUE
  · by_cases h2 : info.sival_ptr = 0
    · simpa [h1, h2] using h
    · by_cases h3 : a = info.sival_ptr
      · simp [h1, h2, h3, upd]
      · simp [h1, h2, h3, upd, h]
  · simpa [h1] using h

/-- The final NUL that `str_concat` stores always lands at index `totalLen`,
one past the last byte of the allocation. -/
theorem str_concat_terminator_index (first second : List Nat) :
    ((str_concat first second).totalLen, 0) ∈ (str_concat first second).stores := by
  simp only [str_concat, List.mem_append]
  right
  have := strcpy_terminator second (strlen first + 1)
  rwa [show strlen first + 1 + strlen second = strlen first + strlen second + 1 by omega] at this

/-- C10 (the code falls short of it): for `first = "a"` and `second = "b"` the
buffer has `totalLen = 3` bytes, the string left in it is `"a b"`, but the
stores go to indices 0, 1, 1, 2 and 3: the terminating NUL is written at index
3, which is not below `totalLen`. -/
theorem str_concat_overflow :
    (str_concat (lit "a") (lit "b")).totalLen = 3 ∧
    (str_concat (lit "a") (lit "b")).contents = lit "a b" ∧
    (str_concat (lit "a") (lit "b")).stores = [(0, 97), (1, 0), (1, 32), (2, 98), (3, 0)] ∧
    ¬ (∀ w ∈ (str_concat (lit "a") (lit "b")).stores,
        w.1 < (str_concat (lit "a") (lit "b")).totalLen) := by
  decide

end I10n
